import Mathlib

/-!
Verification of the movie-production job orchestrator (`src/lib/movie-jobs.ts`
and `src/app/api/webhooks/shotstack/route.ts`).

The TypeScript code is shallowly embedded: JavaScript numbers carried in agent
payloads are modelled as `Option JsNumber` (absent / NaN / rational value),
stored integral fields as `Int`, the Firestore collections as association
lists keyed by document id, and fallible operations return `Except`.
Network effects (the Opencode HTTP session) are abstracted into an oracle
`turns : Nat → TurnResult` giving the parsed model response (or the thrown
error) for each iteration of the convergence loop.
-/

/-- Job status, from the `JobStatus` union type. -/
inductive JobStatus where
  | queued
  | generating
  | completed
  | failed
deriving DecidableEq, Repr

/-- Job stage, from the `JobStage` union type (includes the advisory
sub-stages the agent may report). -/
inductive JobStage where
  | queued
  | pre_production
  | production_pending
  | production
  | idea
  | story
  | screenplay
  | scene_plan
  | planning
  | scene_generation
  | assembly
  | completed
  | failed
deriving DecidableEq, Repr

/-- Author of the latest write to a creative file, from the `UpdatedBy` union. -/
inductive UpdatedBy where
  | system
  | opencode
  | user
deriving DecidableEq, Repr

/-- A JavaScript runtime number as it appears in parsed agent JSON:
either NaN or an actual (rational) value. A JSON field that is absent or not
a number at all is modelled as `none` at the use sites (`Option JsNumber`). -/
inductive JsNumber where
  | nan
  | val (q : ℚ)
deriving DecidableEq, Repr

/-- The `JobRecord` stored in the `jobs` collection. `providerMeta` is the
`{ webhookStatus, webhookPayloadId }` object written by the webhook route. -/
structure JobRecord where
  movieId : String
  userId : String
  status : JobStatus
  stage : JobStage
  progress : Int
  message : String
  totalScenes : Option Int
  completedScenes : Option Int
  renderProvider : Option String
  renderJobId : Option String
  providerMeta : Option (Option String × Option String)
  finalVideoUrl : Option String
  completionToken : Option String
  error : Option String
  claimedBy : Option String
  claimedAt : Option Int
  createdAt : Int
  updatedAt : Int
  completedAt : Option Int
deriving DecidableEq, Repr

/-- The `MovieCreativeFileRecord` stored in the `movieCreativeFiles`
collection. -/
structure FileRec where
  jobId : String
  movieId : String
  fileKey : String
  title : String
  fileName : String
  sortOrder : Int
  content : String
  revision : Int
  updatedBy : UpdatedBy
  createdAt : Int
  updatedAt : Int
deriving DecidableEq, Repr

/-- One entry of the agent's `updates` array (`OpencodeUpdate`). -/
structure OpencodeUpdate where
  fileKey : String
  title : Option String
  content : String
deriving DecidableEq, Repr

/-- The parsed agent turn response (`OpencodeModelResponse`). Every field is
optional in the JSON; `progress` may additionally be a non-integral number or
NaN, hence `Option JsNumber`. -/
structure OpencodeModelResponse where
  stage : Option String
  progress : Option JsNumber
  message : Option String
  done : Option Bool
  doneToken : Option String
  updates : Option (List OpencodeUpdate)
deriving DecidableEq, Repr

/-- `DEFAULT_DONE_TOKEN` from `movie-jobs.ts`. -/
def DEFAULT_DONE_TOKEN : String := "__OPENCODE_DONE__"

/-- `MAX_ITERATIONS` from `movie-jobs.ts`. -/
def MAX_ITERATIONS : Nat := 8

/-- `MAX_FILES_PER_TURN` from `movie-jobs.ts`. -/
def MAX_FILES_PER_TURN : Nat := 6

/-- One entry of `CREATIVE_FILE_DEFS`. -/
structure FileDef where
  fileKey : String
  title : String
  fileName : String
  sortOrder : Int
deriving DecidableEq, Repr

/-- `CREATIVE_FILE_DEFS` from `movie-jobs.ts`. -/
def CREATIVE_FILE_DEFS : List FileDef :=
  [ { fileKey := "title", title := "Title", fileName := "01-title.md", sortOrder := 10 },
    { fileKey := "concept", title := "Concept", fileName := "02-concept.md", sortOrder := 20 },
    { fileKey := "plot_overview", title := "Plot Overview", fileName := "03-plot-overview.md", sortOrder := 30 },
    { fileKey := "visual_style", title := "Visual Style", fileName := "04-visual-style.md", sortOrder := 40 },
    { fileKey := "script", title := "Script", fileName := "05-script.md", sortOrder := 50 },
    { fileKey := "storyboard_text", title := "Storyboard (Text)", fileName := "06-storyboard-text.md", sortOrder := 60 } ]

/-- `ALLOWED_FILE_KEYS` (the set is modelled as the list of its elements,
queried with `List.contains`). -/
def ALLOWED_FILE_KEYS : List String := CREATIVE_FILE_DEFS.map (fun f => f.fileKey)

/-- Prefix test on character lists (executable). -/
def charsHasPre : List Char → List Char → Bool
  | [], _ => true
  | _ :: _, [] => false
  | c :: cs, d :: ds => c = d && charsHasPre cs ds

/-- Substring search on character lists (executable). -/
def hasSubstring : List Char → List Char → Bool
  | [], sub => sub.isEmpty
  | c :: rest, sub => charsHasPre sub (c :: rest) || hasSubstring rest sub

/-- JavaScript `String.prototype.includes`: substring containment. -/
def containsSub (s sub : String) : Bool :=
  hasSubstring s.data sub.data

/-- JavaScript string `||`: the left operand unless it is the empty string
(the only falsy string). -/
def jsOr (a b : String) : String := if a = "" then b else a

/-- JavaScript `\s` character class (restricted to the ASCII whitespace
characters that occur in this code base's documents). -/
def isJsSpace (c : Char) : Bool :=
  c = ' ' || c = '\t' || c = '\n' || c = '\r' || c = '\x0b' || c = '\x0c'

/-- `String.prototype.trim` (structurally recursive so that proofs can
evaluate it): drop whitespace from both ends. -/
def jsTrim (s : String) : String :=
  String.mk (((s.data.dropWhile isJsSpace).reverse.dropWhile isJsSpace).reverse)

/-- `String.prototype.toLowerCase` for the ASCII range (structurally
recursive so that proofs can evaluate it). -/
def jsToLower (s : String) : String :=
  String.mk (s.data.map Char.toLower)

/-- `String.prototype.startsWith` (structurally recursive). -/
def jsStartsWith (s pre : String) : Bool :=
  charsHasPre pre.data s.data

/-- Drop the first `n` characters of a string. -/
def jsDrop (s : String) (n : Nat) : String :=
  String.mk (s.data.drop n)

/-- `normalizeText`: `value?.trim() ?? ""`. -/
def normalizeText (value : Option String) : String := jsTrim (value.getD "")


/-- `Math.round` of JavaScript: round half toward positive infinity. -/
def jsRound (q : ℚ) : Int := Int.floor (q + 1 / 2)

/-- `clampProgress(value, fallback)`: a non-number (absent or NaN) yields the
fallback, a number is rounded and clamped into `[0, 100]`. -/
def clampProgress (value : Option JsNumber) (fallback : Int) : Int :=
  match value with
  | some (JsNumber.val q) => max 0 (min 100 (jsRound q))
  | _ => fallback

/-- `stageFromModel(stage)`: normalizes the agent's stage hint; everything
unrecognized (and a missing or empty hint) falls back to `pre_production`. -/
def stageFromModel (stage : Option String) : JobStage :=
  match stage with
  | none => JobStage.pre_production
  | some s =>
    if s = "" then JobStage.pre_production
    else
      let normalized := jsToLower (jsTrim s)
      if normalized = "pre_production" || normalized = "pre-production" then JobStage.pre_production
      else if normalized = "production_pending" || normalized = "production-pending" then JobStage.production_pending
      else if normalized = "production" then JobStage.production
      else if normalized = "idea" then JobStage.idea
      else if normalized = "story" then JobStage.story
      else if normalized = "screenplay" then JobStage.screenplay
      else if normalized = "scene_plan" then JobStage.scene_plan
      else if normalized = "planning" then JobStage.planning
      else JobStage.pre_production

/-- `toMarkdownDocument(title, content)`. -/
def toMarkdownDocument (title content : String) : String :=
  let body := normalizeText (some content)
  if body = "" then "# " ++ title ++ "\n\n_TODO_\n"
  else "# " ++ title ++ "\n\n" ++ body ++ "\n"

/-- Matcher for the regex tail `[^\n]*\n+`: greedily consume non-newline
characters, then require and consume at least one newline. Returns the suffix
after the match. Shrinking `[^\n]*` can never turn a failure into a success
(the next character would still not be a newline), so no backtracking is
needed inside this tail. -/
def matchMidNl (cs : List Char) : Option (List Char) :=
  let rest := cs.dropWhile (fun c => c ≠ '\n')
  match rest with
  | [] => none
  | _ :: _ => some (rest.dropWhile (fun c => c = '\n'))

/-- Backtracking for the greedy `\s+` of `^#\s+[^\n]*\n+`: try the maximal
whitespace run first and shrink one character at a time, down to length 1. -/
def tryWs : Nat → List Char → Option (List Char)
  | 0, _ => none
  | k + 1, cs =>
    match matchMidNl (cs.drop (k + 1)) with
    | some rest => some rest
    | none => tryWs k cs

/-- `fromMarkdownDocument(content)`: trim, strip a leading markdown heading
(the regex `^#\s+[^\n]*\n+`), and trim again. -/
def fromMarkdownDocument (content : Option String) : String :=
  let normalized := normalizeText content
  if normalized = "" then ""
  else
    match normalized.data with
    | '#' :: rest =>
      let wsN := (rest.takeWhile isJsSpace).length
      match tryWs wsN rest with
      | some suffix => jsTrim (String.mk suffix)
      | none => jsTrim normalized
    | _ => jsTrim normalized

/-- The `required` table of `hasCoreFilesCompleted`: file key with its
minimum stripped-content length. -/
def requiredDocs : List (String × Nat) :=
  [ ("title", 3), ("concept", 20), ("plot_overview", 20),
    ("visual_style", 20), ("script", 20), ("storyboard_text", 20) ]

/-- `hasCoreFilesCompleted(files)`: every required document's content, after
stripping the markdown heading, meets its minimum length. The `Map` built
from the file list keeps the last entry per key, hence `reverse.find?`. -/
def hasCoreFilesCompleted (files : List FileRec) : Bool :=
  requiredDocs.all fun kv =>
    kv.2 ≤ (fromMarkdownDocument ((files.reverse.find? (fun f => f.fileKey = kv.1)).map (fun f => f.content))).length

/-- `defaultProgressForIteration(iteration)`. -/
def defaultProgressForIteration (iteration : Nat) : Int :=
  min 95 (15 + (iteration : Int) * 10)

/-- `creativeFileDocId(jobId, fileKey)`. -/
def creativeFileDocId (jobId fileKey : String) : String := jobId ++ "__" ++ fileKey

/-- Association-list lookup standing for a Firestore document read. -/
def storeGet {α : Type} (st : List (String × α)) (k : String) : Option α :=
  (st.find? (fun e => e.1 = k)).map (fun e => e.2)

/-- Association-list write standing for a Firestore document write (replace
the existing document or create it). -/
def storeSet {α : Type} : List (String × α) → String → α → List (String × α)
  | [], k, r => [(k, r)]
  | e :: rest, k, r => if e.1 = k then (k, r) :: rest else e :: storeSet rest k r

/-- The `movieCreativeFiles` collection. -/
abbrev FileStore : Type := List (String × FileRec)

/-- The `jobs` collection. -/
abbrev JobStore : Type := List (String × JobRecord)

/-- Arguments of `updateJobState` (absent optional arguments are `none`;
`compactObject` then drops them from the merge payload, leaving the stored
field untouched). -/
structure UpdateJobArgs where
  status : JobStatus
  stage : JobStage
  progress : Int
  message : String
  completionToken : Option String
  error : Option String
deriving DecidableEq, Repr

/-- The field-merge write performed by `updateJobState` on an existing job
document: progress is re-clamped with the stored progress as fallback,
`completionToken` falls back to the stored token (`??`), an absent `error`
leaves the stored error untouched (dropped by `compactObject` before the
merge), and `completedAt` is stamped only when the new status is
`completed`. -/
def updateJobDoc (args : UpdateJobArgs) (now : Int) (job : JobRecord) : JobRecord :=
  { job with
    status := args.status
    stage := args.stage
    progress := clampProgress (some (JsNumber.val (args.progress : ℚ))) job.progress
    message := args.message
    completionToken := args.completionToken <|> job.completionToken
    error := args.error <|> job.error
    updatedAt := now
    completedAt := if args.status = JobStatus.completed then some now else job.completedAt }

/-- `updateJobState`: a missing job document makes the call a no-op. -/
def updateJobState (args : UpdateJobArgs) (now : Int) (job : Option JobRecord) : Option JobRecord :=
  job.map (updateJobDoc args now)

/-- One step of `applyOpencodeUpdates`: trim/lowercase the proposed file key,
silently skip it when it is not an allowed key, otherwise create the document
(revision 1) or merge content with `revision := revision + 1` and
`updatedBy := opencode`. -/
def applyOneUpdate (jobId movieId : String) (now : Int) (st : FileStore) (u : OpencodeUpdate) : FileStore :=
  let rawKey := jsToLower (jsTrim u.fileKey)
  if ALLOWED_FILE_KEYS.contains rawKey then
    let docId := creativeFileDocId jobId rawKey
    match storeGet st docId with
    | none =>
      let template := CREATIVE_FILE_DEFS.find? (fun f => f.fileKey = rawKey)
      storeSet st docId
        { jobId := jobId
          movieId := movieId
          fileKey := rawKey
          title := jsOr (normalizeText u.title) (jsOr ((template.map (fun f => f.title)).getD "") rawKey)
          fileName := jsOr ((template.map (fun f => f.fileName)).getD "") (rawKey ++ ".md")
          sortOrder := (template.map (fun f => f.sortOrder)).getD 999
          content := u.content
          revision := 1
          updatedBy := UpdatedBy.opencode
          createdAt := now
          updatedAt := now }
    | some current =>
      storeSet st docId
        { current with
          title := jsOr (normalizeText u.title) current.title
          content := u.content
          revision := current.revision + 1
          updatedBy := UpdatedBy.opencode
          updatedAt := now }
  else st

/-- `applyOpencodeUpdates`: apply at most `MAX_FILES_PER_TURN` proposed
updates in order. -/
def applyOpencodeUpdates (jobId movieId : String) (now : Int) (updates : List OpencodeUpdate) (st : FileStore) : FileStore :=
  (updates.take MAX_FILES_PER_TURN).foldl (applyOneUpdate jobId movieId now) st

/-- `updateCreativeFile`: direct user edit; throws when the document does not
exist, otherwise stores the content verbatim with `revision := revision + 1`
and `updatedBy := user`. (The quotes around the key in the thrown message are
elided here.) -/
def updateCreativeFile (jobId fileKey content : String) (now : Int) (st : FileStore) : Except String Unit × FileStore :=
  let docId := creativeFileDocId jobId fileKey
  match storeGet st docId with
  | none => (Except.error ("File not found for key " ++ fileKey ++ "."), st)
  | some file =>
    (Except.ok (),
     storeSet st docId
       { file with
         content := content
         revision := file.revision + 1
         updatedBy := UpdatedBy.user
         updatedAt := now })

/-- Stable insertion into a list sorted by ascending `sortOrder`, standing
for the stable JavaScript `sort((a, b) => a.sortOrder - b.sortOrder)`. -/
def insertBySortOrder (f : FileRec) : List FileRec → List FileRec
  | [] => [f]
  | g :: rest =>
    if g.sortOrder < f.sortOrder then g :: insertBySortOrder f rest
    else f :: g :: rest

/-- Stable sort by ascending `sortOrder`. -/
def sortBySortOrder : List FileRec → List FileRec
  | [] => []
  | f :: rest => insertBySortOrder f (sortBySortOrder rest)

/-- The creative files loaded by `getOpencodeContext` for one job: the
documents whose `jobId` field matches, sorted by `sortOrder`. -/
def filesForJob (jobId : String) (st : FileStore) : List FileRec :=
  sortBySortOrder ((st.filter (fun e => e.2.jobId = jobId)).map (fun e => e.2))

/-- `buildInitialFiles` content for one catalog slot. -/
def initialFileContent (input : List (String × String)) (f : FileDef) : String :=
  let field := fun k => normalizeText ((input.find? (fun e => e.1 = k)).map (fun e => e.2))
  if f.fileKey = "title" then toMarkdownDocument "Title" (field "title")
  else if f.fileKey = "concept" then toMarkdownDocument "Concept" (field "concept")
  else if f.fileKey = "plot_overview" then
    toMarkdownDocument "Plot Overview" (jsOr (field "plotOverview") (field "concept"))
  else if f.fileKey = "visual_style" then toMarkdownDocument "Visual Style" (field "visualStyle")
  else if f.fileKey = "script" then toMarkdownDocument "Script" (field "script")
  else if f.fileKey = "storyboard_text" then
    toMarkdownDocument "Storyboard (Text)"
      "## Scene 1\n- Shot: \n- Visual: \n- Dialogue/Audio: \n\n## Scene 2\n- Shot: \n- Visual: \n- Dialogue/Audio: "
  else ""

/-- The job record written by `createMovieAndQueueJob`. -/
def newJobRecord (movieId userId : String) (now : Int) : JobRecord :=
  { movieId := movieId
    userId := userId
    status := JobStatus.queued
    stage := JobStage.queued
    progress := 0
    message := "Queued for OpenCode Step 1 (pre-production)."
    totalScenes := none
    completedScenes := none
    renderProvider := none
    renderJobId := none
    providerMeta := none
    finalVideoUrl := none
    completionToken := none
    error := none
    claimedBy := none
    claimedAt := none
    createdAt := now
    updatedAt := now
    completedAt := none }

/-- `createMovieAndQueueJob` restricted to the collections the claims are
about: it batches the new job record (status and stage `queued`, progress 0)
and the six seeded creative documents (revision 1, `updatedBy := system`).
The movie record write and the `randomUUID` ids are parameters. -/
def createMovieAndQueueJob (seed : List (String × String)) (movieId jobId userId : String)
    (now : Int) (jobs : JobStore) (files : FileStore) : JobStore × FileStore :=
  let jobs2 := storeSet jobs jobId (newJobRecord movieId userId now)
  let files2 := CREATIVE_FILE_DEFS.foldl
    (fun acc f =>
      storeSet acc (creativeFileDocId jobId f.fileKey)
        { jobId := jobId
          movieId := movieId
          fileKey := f.fileKey
          title := f.title
          fileName := f.fileName
          sortOrder := f.sortOrder
          content := initialFileContent seed f
          revision := 1
          updatedBy := UpdatedBy.system
          createdAt := now
          updatedAt := now })
    files
  (jobs2, files2)

/-- Classified render status (`CompleteWebhookInput["status"]`). -/
inductive RenderStatus where
  | queued
  | rendering
  | done
  | failed
deriving DecidableEq, Repr

/-- Input of `completeJobFromRenderWebhook`. -/
structure CompleteWebhookInput where
  renderJobId : String
  status : RenderStatus
  finalVideoUrl : Option String
  error : Option String
  providerMeta : Option (Option String × Option String)
deriving DecidableEq, Repr

/-- JavaScript `||` on an optional error string (`args.error || "Render
failed."`): absent and empty strings are falsy. -/
def jsOrOpt (a : Option String) (b : String) : String :=
  match a with
  | some s => if s = "" then b else s
  | none => b

/-- The `compactObject`-then-merge patch `completeJobFromRenderWebhook`
applies to the matched job. Fields the patch sets to `undefined` (via `??`
falling through to an absent stored field) are dropped before the merge and
therefore leave the stored field unchanged, which `<|>` reproduces. -/
def renderPatch (args : CompleteWebhookInput) (now : Int) (job : JobRecord) : JobRecord :=
  let base := { job with updatedAt := now, providerMeta := args.providerMeta <|> job.providerMeta }
  match args.status with
  | RenderStatus.done =>
    { base with
      status := JobStatus.completed
      stage := JobStage.completed
      progress := 100
      message := "Render completed."
      completedAt := some now
      finalVideoUrl := args.finalVideoUrl <|> job.finalVideoUrl }
  | RenderStatus.failed =>
    { base with
      status := JobStatus.failed
      stage := JobStage.failed
      message := jsOrOpt args.error "Render failed."
      error := args.error <|> job.error }
  | _ =>
    { base with
      status := JobStatus.generating
      stage := JobStage.assembly
      message := "Render is in progress." }

/-- Result object of `completeJobFromRenderWebhook`. -/
structure WebhookResult where
  ok : Bool
  message : Option String
deriving DecidableEq, Repr

/-- `completeJobFromRenderWebhook`: look up the (first) job whose
`renderJobId` equals the extracted identifier and patch it according to the
classified status; report failure when no job matches. -/
def completeJobFromRenderWebhook (args : CompleteWebhookInput) (now : Int) (st : JobStore) :
    WebhookResult × JobStore :=
  match st.find? (fun e => e.2.renderJobId = some args.renderJobId) with
  | none => ({ ok := false, message := some "No job found for render id." }, st)
  | some e =>
    ({ ok := true, message := none }, storeSet st e.1 (renderPatch args now e.2))

/-- `startProductionStep`: throws unless the job exists and its stage is
`production_pending` or `completed`; on success merges
`{status: generating, stage: production, progress: 0}`. The `error:
undefined` entry of the patch is removed by `compactObject`, so the stored
error field is untouched. -/
def startProductionStep (jobId : String) (now : Int) (st : JobStore) :
    Except String Unit × JobStore :=
  match storeGet st jobId with
  | none => (Except.error "Job not found.", st)
  | some job =>
    if job.stage ≠ JobStage.production_pending ∧ job.stage ≠ JobStage.completed then
      (Except.error "Step 1 is not complete yet. Finish pre-production first.", st)
    else
      (Except.ok (),
       storeSet st jobId
         { job with
           status := JobStatus.generating
           stage := JobStage.production
           progress := 0
           message := "Step 2 production triggered."
           updatedAt := now })

/-- An arbitrary JSON value at a position the webhook route reads with
`asString`: either a string or anything else (number, object, absent...). -/
inductive JsVal where
  | str (s : String)
  | other
deriving DecidableEq, Repr

/-- `asString(value)`: a string with non-whitespace content is trimmed,
everything else is `undefined`. -/
def asStringJs : JsVal → Option String
  | JsVal.str s => if jsTrim s = "" then none else some (jsTrim s)
  | JsVal.other => none

/-- The `response` / `data` sub-objects of the webhook payload. -/
structure NestedPayload where
  id : JsVal
  status : JsVal
  url : JsVal
  error : JsVal
deriving DecidableEq, Repr

/-- The webhook JSON body, restricted to the positions the route reads. -/
structure WebhookPayload where
  id : JsVal
  renderId : JsVal
  status : JsVal
  url : JsVal
  error : JsVal
  response : Option NestedPayload
  data : Option NestedPayload
deriving DecidableEq, Repr

/-- Read `asString` of a field of an optional nested object
(`asString((payload.response as ...)?.field)`). -/
def nestedField (n : Option NestedPayload) (f : NestedPayload → JsVal) : Option String :=
  match n with
  | some r => asStringJs (f r)
  | none => none

/-- The render id extraction chain of the POST handler. -/
def renderJobIdOf (p : WebhookPayload) : Option String :=
  asStringJs p.id <|> asStringJs p.renderId <|> nestedField p.response (fun r => r.id)

/-- The raw status extraction chain of the POST handler. -/
def rawStatusOf (p : WebhookPayload) : Option String :=
  asStringJs p.status <|> nestedField p.response (fun r => r.status) <|> nestedField p.data (fun r => r.status)

/-- The final video url extraction chain of the POST handler. -/
def finalUrlOf (p : WebhookPayload) : Option String :=
  asStringJs p.url <|> nestedField p.response (fun r => r.url) <|> nestedField p.data (fun r => r.url)

/-- The provider error extraction chain of the POST handler. -/
def providerErrorOf (p : WebhookPayload) : Option String :=
  asStringJs p.error <|> nestedField p.data (fun r => r.error)


/-- `mapStatus(rawStatus)`: lowercase, then classify by substring match in
fixed precedence order. -/
def mapStatus (rawStatus : Option String) : RenderStatus :=
  let normalized := match rawStatus with | some s => jsToLower s | none => ""
  if containsSub normalized "done" || containsSub normalized "complete" then RenderStatus.done
  else if containsSub normalized "fail" || containsSub normalized "error" then RenderStatus.failed
  else if containsSub normalized "render" || containsSub normalized "process" then RenderStatus.rendering
  else RenderStatus.queued

/-- `constantTimeEquals(a, b)`: UTF-8 byte buffers of different length are
unequal without content comparison; otherwise `timingSafeEqual`, i.e. byte
equality. -/
def constantTimeEquals (a b : String) : Bool :=
  if a.toUTF8.size ≠ b.toUTF8.size then false
  else a.toUTF8.data = b.toUTF8.data

/-- `readHeader(headers, names)`: the first header among the candidates with
a truthy (non-empty) value. -/
def firstNonEmpty : List (Option String) → Option String
  | [] => none
  | none :: rest => firstNonEmpty rest
  | some v :: rest => if v = "" then firstNonEmpty rest else some v

/-- The inbound webhook request: the three candidate secret headers and the
JSON body. -/
structure WebhookRequest where
  xWebhookSecret : Option String
  xShotstackSignature : Option String
  authHeader : Option String
  payload : WebhookPayload
deriving DecidableEq, Repr

/-- The caller-supplied secret after header selection and `Bearer ` prefix
stripping. -/
def normalizedProvidedSecret (req : WebhookRequest) : Option String :=
  let provided := firstNonEmpty [req.xWebhookSecret, req.xShotstackSignature, req.authHeader]
  provided.map (fun v => if jsStartsWith v "Bearer " then jsDrop v 7 else v)

/-- The POST handler of `api/webhooks/shotstack`, returning the HTTP status
code and the resulting job store: 500 when no secret is configured, 401 on a
missing/mismatched caller secret (before any read of the body), 400 when no
render id can be extracted, otherwise the reconciliation runs. -/
def webhookPOST (envSecret : Option String) (req : WebhookRequest) (now : Int) (st : JobStore) :
    Nat × JobStore :=
  let webhookSecret := normalizeText envSecret
  if webhookSecret = "" then (500, st)
  else
    match normalizedProvidedSecret req with
    | none => (401, st)
    | some s =>
      if s = "" then (401, st)
      else if constantTimeEquals s webhookSecret = false then (401, st)
      else
        match renderJobIdOf req.payload with
        | none => (400, st)
        | some rid =>
          let rawStatus := rawStatusOf req.payload
          (200,
           (completeJobFromRenderWebhook
             { renderJobId := rid
               status := mapStatus rawStatus
               finalVideoUrl := finalUrlOf req.payload
               error := providerErrorOf req.payload
               providerMeta := some (rawStatus, asStringJs req.payload.id) }
             now st).2)

/-- The per-turn update filter of `runOpencodeJob`: cap at
`MAX_FILES_PER_TURN`, keep only updates whose content has non-whitespace
text (the `typeof` guards always hold in this typed model). -/
def filterTurnUpdates (updates : List OpencodeUpdate) : List OpencodeUpdate :=
  (updates.take MAX_FILES_PER_TURN).filter
    (fun u => 0 < (normalizeText (some u.content)).length)

/-- State threaded through the convergence loop: the job document and the
creative-file collection. The movie record is written only by the one-way
`syncMovieFromCreativeFiles` step and is never read back by the loop, so it
is not part of this state. -/
structure LoopState where
  job : JobRecord
  files : FileStore
deriving DecidableEq, Repr

/-- The file store after one turn's updates are applied
(`applyOpencodeUpdates` is only invoked when some update survived the
filter). -/
def iterationFiles (jobId movieId : String) (now : Int) (model : OpencodeModelResponse) (st : FileStore) : FileStore :=
  let updates := filterTurnUpdates (model.updates.getD [])
  if 0 < updates.length then applyOpencodeUpdates jobId movieId now updates st else st

/-- The three-way completion check of the loop body: the agent declared
`done === true`, the six reloaded documents pass `hasCoreFilesCompleted`,
and the trimmed `doneToken` equals `DEFAULT_DONE_TOKEN`. -/
def iterationDone (jobId : String) (model : OpencodeModelResponse) (files : FileStore) : Bool :=
  decide (model.done = some true) &&
  hasCoreFilesCompleted (filesForJob jobId files) &&
  decide (normalizeText model.doneToken = DEFAULT_DONE_TOKEN)

/-- The completion token the loop stores and returns on success:
`normalizeText(model.doneToken) || DEFAULT_DONE_TOKEN`. -/
def doneTokenResult (model : OpencodeModelResponse) : String :=
  jsOr (normalizeText model.doneToken) DEFAULT_DONE_TOKEN

/-- The status message written at the end of one loop body. -/
def iterationMessage (iteration : Nat) (model : OpencodeModelResponse) (done doneByModel doneByFiles hasDoneToken : Bool) : String :=
  jsOr (normalizeText model.message)
    (if done then "Step 1 complete. Ready for Step 2 production."
     else if doneByModel && doneByFiles && !hasDoneToken then
       "OpenCode requested completion but missing required token " ++ DEFAULT_DONE_TOKEN ++ "."
     else
       "OpenCode Step 1 iteration " ++ toString iteration ++ "/" ++ toString MAX_ITERATIONS ++ " finished.")

/-- One body of the `for` loop of `runOpencodeJob` after the turn response
`model` arrived: filter and apply updates, reload the files, evaluate the
three-way completion check and write the job state. Returns the new state
and the `done` flag that decides whether the loop returns success. -/
def runIteration (jobId movieId : String) (iteration : Nat) (now : Int)
    (model : OpencodeModelResponse) (st : LoopState) : LoopState × Bool :=
  let files1 := iterationFiles jobId movieId now model st.files
  let doneByModel : Bool := decide (model.done = some true)
  let doneByFiles : Bool := hasCoreFilesCompleted (filesForJob jobId files1)
  let hasDoneToken : Bool := decide (normalizeText model.doneToken = DEFAULT_DONE_TOKEN)
  let done : Bool := doneByModel && doneByFiles && hasDoneToken
  let progress : Int :=
    if done then 100 else clampProgress model.progress (defaultProgressForIteration iteration)
  let stage : JobStage := if done then JobStage.production_pending else stageFromModel model.stage
  let message := iterationMessage iteration model done doneByModel doneByFiles hasDoneToken
  let job1 := updateJobDoc
    { status := if done then JobStatus.completed else JobStatus.generating
      stage := stage
      progress := progress
      message := message
      completionToken := if done then some (doneTokenResult model) else none
      error := none } now st.job
  ({ job := job1, files := files1 }, done)

/-- The outcome of one turn of the generation session: the parsed model
response, or the message of the error thrown by the session call or response
parsing. -/
abbrev TurnResult : Type := Except String OpencodeModelResponse

/-- Return value of `runOpencodeJob`. -/
structure RunResult where
  ok : Bool
  completionToken : Option String
  nextStep : Option String
  error : Option String
deriving DecidableEq, Repr

/-- The `updateJobState` argument object of the two failure paths of
`runOpencodeJob` (iteration exhaustion and the catch block). -/
def failJobArgs (msg err : String) : UpdateJobArgs :=
  { status := JobStatus.failed
    stage := JobStage.failed
    progress := 100
    message := msg
    completionToken := none
    error := some err }

/-- The `updateJobState` argument object of the initial write of
`runOpencodeJob`. -/
def startJobArgs : UpdateJobArgs :=
  { status := JobStatus.generating
    stage := JobStage.pre_production
    progress := 3
    message := "OpenCode agent started Step 1 (pre-production)."
    completionToken := none
    error := none }

/-- The `for` loop of `runOpencodeJob` from iteration `iteration` with
`budget` iterations left, driven by the turn oracle: budget 0 is the
exhaustion path (`MAX_ITERATIONS_REACHED`), a turn error is the catch path,
a completing turn returns success, otherwise the loop continues. -/
def runLoopAux (jobId movieId : String) (now : Int) (turns : Nat → TurnResult) :
    Nat → Nat → LoopState → RunResult × LoopState
  | _, 0, st =>
    ({ ok := false, completionToken := none, nextStep := none, error := some "MAX_ITERATIONS_REACHED" },
     { st with job := updateJobDoc (failJobArgs "OpenCode Step 1 stopped before completing required files." "MAX_ITERATIONS_REACHED") now st.job })
  | iteration, budget + 1, st =>
    match turns iteration with
    | Except.error e =>
      ({ ok := false, completionToken := none, nextStep := none, error := some e },
       { st with job := updateJobDoc (failJobArgs "Opencode failed." e) now st.job })
    | Except.ok model =>
      let step := runIteration jobId movieId iteration now model st
      if step.2 then
        ({ ok := true, completionToken := some (doneTokenResult model), nextStep := some "production", error := none },
         step.1)
      else
        runLoopAux jobId movieId now turns (iteration + 1) budget step.1

/-- `runOpencodeJob`: write the initial `pre_production` job state, then
(unless session creation failed, which takes the catch path) run the loop
from iteration 1 with the `MAX_ITERATIONS` budget. Session close is
best-effort and has no effect on this state. -/
def runOpencodeJob (jobId movieId : String) (now : Int) (session : Except String Unit)
    (turns : Nat → TurnResult) (st : LoopState) : RunResult × LoopState :=
  let st0 : LoopState :=
    { st with job := updateJobDoc startJobArgs now st.job }
  match session with
  | Except.error e =>
    ({ ok := false, completionToken := none, nextStep := none, error := some e },
     { st0 with job := updateJobDoc (failJobArgs "Opencode failed." e) now st0.job })
  | Except.ok _ => runLoopAux jobId movieId now turns 1 MAX_ITERATIONS st0

/-- Rounding an integer-valued rational is the identity. -/
lemma jsRound_intCast (n : Int) : jsRound (n : ℚ) = n := by
  unfold jsRound
  rw [Int.floor_eq_iff]
  constructor
  · linarith
  · linarith

/-- A numeric (non-NaN) input is clamped into the range `[0, 100]` whatever
the fallback is. -/
lemma clampProgress_val_range (q : ℚ) (fallback : Int) :
    0 ≤ clampProgress (some (JsNumber.val q)) fallback ∧
    clampProgress (some (JsNumber.val q)) fallback ≤ 100 := by
  have h : clampProgress (some (JsNumber.val q)) fallback = max 0 (min 100 (jsRound q)) := rfl
  rw [h]
  constructor
  · exact le_max_left 0 _
  · exact max_le (by norm_num) (min_le_left _ _)

/-- Clamping an integer already in `[0, 100]` returns it unchanged. -/
lemma clampProgress_int_of_range (n fallback : Int) (h0 : 0 ≤ n) (h1 : n ≤ 100) :
    clampProgress (some (JsNumber.val (n : ℚ))) fallback = n := by
  have h : clampProgress (some (JsNumber.val (n : ℚ))) fallback = max 0 (min 100 (jsRound (n : ℚ))) := rfl
  rw [h, jsRound_intCast]
  omega

/-- The stored progress field of `updateJobDoc`. -/
lemma updateJobDoc_progress (args : UpdateJobArgs) (now : Int) (job : JobRecord) :
    (updateJobDoc args now job).progress =
      clampProgress (some (JsNumber.val (args.progress : ℚ))) job.progress := rfl

/-- `updateJobDoc` always stores a progress value in `[0, 100]`. -/
lemma updateJobDoc_progress_range (args : UpdateJobArgs) (now : Int) (job : JobRecord) :
    0 ≤ (updateJobDoc args now job).progress ∧ (updateJobDoc args now job).progress ≤ 100 := by
  rw [updateJobDoc_progress]
  exact clampProgress_val_range _ _

/-- Reading back the key just written. -/
lemma storeGet_storeSet_self {α : Type} (st : List (String × α)) (k : String) (r : α) :
    storeGet (storeSet st k r) k = some r := by
  induction st with
  | nil => simp [storeGet, storeSet, List.find?]
  | cons e rest ih =>
    by_cases h : e.1 = k
    · simp [storeSet, h, storeGet, List.find?]
    · simp only [storeSet, if_neg h]
      simpa [storeGet, List.find?, h] using ih

/-- Writing one key leaves every other key unchanged. -/
lemma storeGet_storeSet_ne {α : Type} (st : List (String × α)) (k k2 : String) (r : α)
    (h : k2 ≠ k) : storeGet (storeSet st k r) k2 = storeGet st k2 := by
  have h2 : k ≠ k2 := Ne.symm h
  induction st with
  | nil => simp [storeGet, storeSet, List.find?, h2]
  | cons e rest ih =>
    by_cases he : e.1 = k
    · subst he
      have h3 : e.1 ≠ k2 := h2
      simp [storeSet, storeGet, List.find?, h3]
    · simp only [storeSet, if_neg he]
      by_cases he2 : e.1 = k2
      · simp [storeGet, List.find?, he2]
      · simpa [storeGet, List.find?, he2] using ih

/-- Every entry of the written store is the new entry or an old entry. -/
lemma mem_storeSet {α : Type} (st : List (String × α)) (k : String) (r : α) (e : String × α)
    (h : e ∈ storeSet st k r) : e = (k, r) ∨ e ∈ st := by
  induction st with
  | nil => simpa [storeSet] using h
  | cons f rest ih =>
    by_cases hf : f.1 = k
    · simp only [storeSet, if_pos hf] at h
      rcases List.mem_cons.mp h with h1 | h1
      · exact Or.inl h1
      · exact Or.inr (List.mem_cons_of_mem _ h1)
    · simp only [storeSet, if_neg hf] at h
      rcases List.mem_cons.mp h with h1 | h1
      · exact Or.inr (h1 ▸ List.mem_cons_self _ _)
      · rcases ih h1 with h2 | h2
        · exact Or.inl h2
        · exact Or.inr (List.mem_cons_of_mem _ h2)

/-- The lowercased status text `mapStatus` classifies. -/
def normalizedStatus (rawStatus : Option String) : String :=
  match rawStatus with
  | some s => jsToLower s
  | none => ""

/-- `mapStatus` unfolded through `normalizedStatus`. -/
lemma mapStatus_def (rawStatus : Option String) :
    mapStatus rawStatus =
      (if containsSub (normalizedStatus rawStatus) "done" || containsSub (normalizedStatus rawStatus) "complete" then RenderStatus.done
       else if containsSub (normalizedStatus rawStatus) "fail" || containsSub (normalizedStatus rawStatus) "error" then RenderStatus.failed
       else if containsSub (normalizedStatus rawStatus) "render" || containsSub (normalizedStatus rawStatus) "process" then RenderStatus.rendering
       else RenderStatus.queued) := by
  cases rawStatus <;> rfl

/-- A creative-file document used as concrete input below. -/
def demoTitleFile : FileRec :=
  { jobId := "j1"
    movieId := "m1"
    fileKey := "title"
    title := "Title"
    fileName := "01-title.md"
    sortOrder := 10
    content := "# Title\n\nOld film title"
    revision := 1
    updatedBy := UpdatedBy.system
    createdAt := 0
    updatedAt := 0 }

/-- A one-document file store used as concrete input below. -/
def demoFileStore : FileStore := [("j1__title", demoTitleFile)]

/-- A job document used as concrete input below. -/
def demoJob : JobRecord := newJobRecord "m1" "u1" 0

/-- The executable prefix test agrees with `List.IsPrefix`. -/
lemma charsHasPre_iff : ∀ (sub s : List Char), charsHasPre sub s = true ↔ sub <+: s := by
  intro sub
  induction sub with
  | nil => intro s; simp [charsHasPre]
  | cons c cs ih =>
    intro s
    cases s with
    | nil => simp [charsHasPre]
    | cons d ds =>
      simp only [charsHasPre, Bool.and_eq_true, decide_eq_true_eq, ih,
        List.cons_prefix_cons]

/-- The executable substring search agrees with `List.IsInfix`, certifying
that `containsSub` is substring containment. -/
lemma hasSubstring_iff : ∀ (s sub : List Char), hasSubstring s sub = true ↔ sub <:+: s := by
  intro s
  induction s with
  | nil =>
    intro sub
    simp [hasSubstring, List.isEmpty_iff, List.infix_nil]
  | cons c rest ih =>
    intro sub
    simp only [hasSubstring, Bool.or_eq_true, charsHasPre_iff, ih,
      List.infix_cons_iff]

/-- C7: the webhook status classifier `mapStatus` is a pure function that
lowercases the provider status text and classifies it by substring match in
exact precedence order: "done"/"complete" win over "fail"/"error", which win
over "render"/"process", and everything else — including a missing status —
maps to `queued`; the characterization below fixes the outcome for every
input, in particular when several keyword classes co-occur, and the concrete
instances exhibit the precedence on co-occurring keywords. -/
theorem mapStatus_precedence_order :
    (∀ s : Option String,
      (mapStatus s = RenderStatus.done ↔
        (containsSub (normalizedStatus s) "done" || containsSub (normalizedStatus s) "complete") = true) ∧
      (mapStatus s = RenderStatus.failed ↔
        ((containsSub (normalizedStatus s) "done" || containsSub (normalizedStatus s) "complete") = false ∧
         (containsSub (normalizedStatus s) "fail" || containsSub (normalizedStatus s) "error") = true)) ∧
      (mapStatus s = RenderStatus.rendering ↔
        ((containsSub (normalizedStatus s) "done" || containsSub (normalizedStatus s) "complete") = false ∧
         (containsSub (normalizedStatus s) "fail" || containsSub (normalizedStatus s) "error") = false ∧
         (containsSub (normalizedStatus s) "render" || containsSub (normalizedStatus s) "process") = true)) ∧
      (mapStatus s = RenderStatus.queued ↔
        ((containsSub (normalizedStatus s) "done" || containsSub (normalizedStatus s) "complete") = false ∧
         (containsSub (normalizedStatus s) "fail" || containsSub (normalizedStatus s) "error") = false ∧
         (containsSub (normalizedStatus s) "render" || containsSub (normalizedStatus s) "process") = false))) ∧
    mapStatus none = RenderStatus.queued ∧
    mapStatus (some "Render DONE, with errors") = RenderStatus.done ∧
    mapStatus (some "processing failure") = RenderStatus.failed ∧
    mapStatus (some "now rendering") = RenderStatus.rendering := by
  refine ⟨fun s => ?_, by decide, by decide, by decide, by decide⟩
  rw [mapStatus_def]
  by_cases h1 : (containsSub (normalizedStatus s) "done" || containsSub (normalizedStatus s) "complete") = true
  · rw [if_pos h1]
    exact ⟨by simp [h1], by simp [h1], by simp [h1], by simp [h1]⟩
  · rw [if_neg h1]
    rw [Bool.not_eq_true] at h1
    by_cases h2 : (containsSub (normalizedStatus s) "fail" || containsSub (normalizedStatus s) "error") = true
    · rw [if_pos h2]
      exact ⟨by simp [h1], by simp [h1, h2], by simp [h2], by simp [h2]⟩
    · rw [if_neg h2]
      rw [Bool.not_eq_true] at h2
      by_cases h3 : (containsSub (normalizedStatus s) "render" || containsSub (normalizedStatus s) "process") = true
      · rw [if_pos h3]
        exact ⟨by simp [h1], by simp [h2], by simp [h1, h2, h3], by simp [h3]⟩
      · rw [if_neg h3]
        rw [Bool.not_eq_true] at h3
        exact ⟨by simp [h1], by simp [h2], by simp [h3], by simp [h1, h2, h3]⟩

/-- C10: a direct user edit through `updateCreativeFile` of an existing
document is applied unconditionally for any content string — including an
empty or whitespace-only one — storing the content verbatim, incrementing
the revision by exactly one and setting `updatedBy` to the user; when the
document does not exist the call throws a not-found error and leaves the
store unchanged. -/
theorem updateCreativeFile_spec :
    (∀ (jobId fileKey content : String) (now : Int) (st : FileStore) (rec : FileRec),
      storeGet st (creativeFileDocId jobId fileKey) = some rec →
      updateCreativeFile jobId fileKey content now st =
        (Except.ok (),
         storeSet st (creativeFileDocId jobId fileKey)
           { rec with
             content := content
             revision := rec.revision + 1
             updatedBy := UpdatedBy.user
             updatedAt := now })) ∧
    (∀ (jobId fileKey content : String) (now : Int) (st : FileStore),
      storeGet st (creativeFileDocId jobId fileKey) = none →
      updateCreativeFile jobId fileKey content now st =
        (Except.error ("File not found for key " ++ fileKey ++ "."), st)) := by
  constructor
  · intro jobId fileKey content now st rec h
    unfold updateCreativeFile
    dsimp only
    rw [h]
  · intro jobId fileKey content now st h
    unfold updateCreativeFile
    dsimp only
    rw [h]

/-- Witness for C10: a whitespace-only user edit of the demo document is
accepted and bumps the revision from 1 to 2, and an edit of a missing
document fails without touching the store. -/
theorem updateCreativeFile_spec_witness :
    updateCreativeFile "j1" "title" " " 5 demoFileStore =
      (Except.ok (),
       storeSet demoFileStore "j1__title"
         { demoTitleFile with
           content := " "
           revision := 2
           updatedBy := UpdatedBy.user
           updatedAt := 5 }) ∧
    updateCreativeFile "j1" "missing" "text" 5 demoFileStore =
      (Except.error ("File not found for key " ++ "missing" ++ "."), demoFileStore) :=
  ⟨updateCreativeFile_spec.1 "j1" "title" " " 5 demoFileStore demoTitleFile rfl,
   updateCreativeFile_spec.2 "j1" "missing" "text" 5 demoFileStore rfl⟩

/-- A job sitting in `production_pending` that carries a stale error
message, used to examine `startProductionStep`. -/
def demoPendingJob : JobRecord :=
  { demoJob with stage := JobStage.production_pending, error := some "previous failure" }

/-- Counterexample for C8: a successful production start on a job whose
stored error is `"previous failure"` leaves that error in place — the
`error: undefined` entry of the patch is removed by `compactObject` before
the field-level merge, so the claim that success clears the error field is
false. -/
theorem startProductionStep_error_kept :
    (startProductionStep "j1" 9 [("j1", demoPendingJob)]).1 = Except.ok () ∧
    (storeGet (startProductionStep "j1" 9 [("j1", demoPendingJob)]).2 "j1").map JobRecord.error =
      some (some "previous failure") := by
  constructor
  · rfl
  · rfl

/-- C8 (amended): the production-start operation succeeds only when the
job's current stage is `production_pending` or `completed`; for every job in
any other stage it fails with a precondition error and leaves the store
entirely unchanged, and a missing job also leaves the store unchanged; on
success it merges `{status: generating, stage: production, progress: 0}` —
the error field is left unchanged rather than cleared, because the undefined
error entry is dropped by `compactObject` before the merge. -/
theorem startProductionStep_spec :
    (∀ (jobId : String) (now : Int) (st : JobStore) (job : JobRecord),
      storeGet st jobId = some job →
      job.stage ≠ JobStage.production_pending →
      job.stage ≠ JobStage.completed →
      startProductionStep jobId now st =
        (Except.error "Step 1 is not complete yet. Finish pre-production first.", st)) ∧
    (∀ (jobId : String) (now : Int) (st : JobStore) (job : JobRecord),
      storeGet st jobId = some job →
      (job.stage = JobStage.production_pending ∨ job.stage = JobStage.completed) →
      startProductionStep jobId now st =
        (Except.ok (),
         storeSet st jobId
           { job with
             status := JobStatus.generating
             stage := JobStage.production
             progress := 0
             message := "Step 2 production triggered."
             updatedAt := now })) ∧
    (∀ (jobId : String) (now : Int) (st : JobStore),
      storeGet st jobId = none →
      startProductionStep jobId now st = (Except.error "Job not found.", st)) := by
  refine ⟨?_, ?_, ?_⟩
  · intro jobId now st job h hne1 hne2
    unfold startProductionStep
    rw [h]
    dsimp only
    rw [if_pos ⟨hne1, hne2⟩]
  · intro jobId now st job h hor
    unfold startProductionStep
    rw [h]
    dsimp only
    rw [if_neg (by tauto)]
  · intro jobId now st h
    unfold startProductionStep
    rw [h]

/-- Witness for C8: a job in `pre_production` is rejected with the
precondition error and the store is unchanged, while the demo
`production_pending` job is started successfully. -/
theorem startProductionStep_spec_witness :
    startProductionStep "j1" 9 [("j1", demoJob)] =
      (Except.error "Step 1 is not complete yet. Finish pre-production first.", [("j1", demoJob)]) ∧
    startProductionStep "j1" 9 [("j1", demoPendingJob)] =
      (Except.ok (),
       storeSet [("j1", demoPendingJob)] "j1"
         { demoPendingJob with
           status := JobStatus.generating
           stage := JobStage.production
           progress := 0
           message := "Step 2 production triggered."
           updatedAt := 9 }) ∧
    startProductionStep "nope" 9 [("j1", demoJob)] = (Except.error "Job not found.", [("j1", demoJob)]) :=
  ⟨startProductionStep_spec.1 "j1" 9 [("j1", demoJob)] demoJob rfl (by decide) (by decide),
   startProductionStep_spec.2.1 "j1" 9 [("j1", demoPendingJob)] demoPendingJob rfl (Or.inl rfl),
   startProductionStep_spec.2.2 "nope" 9 [("j1", demoJob)] rfl⟩

/-- C6: for every inbound render webhook whose caller-supplied secret is
missing, empty after header selection, of a different UTF-8 byte length than
the configured secret, or not byte-equal to it under the constant-time
comparison, the handler responds 401 Unauthorized and performs no job
mutation — the job store it returns is the store it was given, so every
field of every job is identical to its pre-call value; a length mismatch
alone already forces `constantTimeEquals` to false. -/
theorem webhook_unauthorized_immutable :
    (∀ (envSecret : Option String) (req : WebhookRequest) (now : Int) (st : JobStore),
      normalizeText envSecret ≠ "" →
      (normalizedProvidedSecret req = none ∨ normalizedProvidedSecret req = some "" ∨
       (∃ s, normalizedProvidedSecret req = some s ∧
         constantTimeEquals s (normalizeText envSecret) = false)) →
      webhookPOST envSecret req now st = (401, st)) ∧
    (∀ a b : String, a.toUTF8.size ≠ b.toUTF8.size → constantTimeEquals a b = false) := by
  constructor
  · intro envSecret req now st hcfg hbad
    unfold webhookPOST
    dsimp only
    rw [if_neg hcfg]
    rcases hbad with hnone | hempty | ⟨s, hs, hcte⟩
    · rw [hnone]
    · rw [hempty]
      dsimp only
      rw [if_pos rfl]
    · rw [hs]
      dsimp only
      by_cases hse : s = ""
      · rw [if_pos hse]
      · rw [if_neg hse, if_pos hcte]
  · intro a b h
    unfold constantTimeEquals
    rw [if_pos h]

/-- A webhook request carrying a wrong bearer secret, used as concrete
input below. -/
def demoBadRequest : WebhookRequest :=
  { xWebhookSecret := none
    xShotstackSignature := none
    authHeader := some "Bearer wrong"
    payload :=
      { id := JsVal.str "r1"
        renderId := JsVal.other
        status := JsVal.str "done"
        url := JsVal.other
        error := JsVal.other
        response := none
        data := none } }

/-- Witness for C6: with configured secret `"s3cret"`, the request carrying
`Bearer wrong` is rejected with 401 and the one-job store is returned
unchanged; and two secrets of different byte length compare unequal. -/
theorem webhook_unauthorized_immutable_witness :
    webhookPOST (some "s3cret") demoBadRequest 3 [("j1", demoJob)] = (401, [("j1", demoJob)]) ∧
    constantTimeEquals "abc" "abcd" = false :=
  ⟨webhook_unauthorized_immutable.1 (some "s3cret") demoBadRequest 3 [("j1", demoJob)]
     (by decide)
     (Or.inr (Or.inr ⟨"wrong", rfl, by decide⟩)),
   webhook_unauthorized_immutable.2 "abc" "abcd" (by decide)⟩

/-- Counterexample for C5: the proposed file key `" TITLE "` is not one of
the six allowed keys, yet `applyOpencodeUpdates` does not drop the update —
the key is trimmed and lowercased first, so the update modifies the stored
`title` document (content replaced, revision bumped to 2). -/
theorem agent_update_unknown_key_applied :
    ALLOWED_FILE_KEYS.contains " TITLE " = false ∧
    storeGet
      (applyOpencodeUpdates "j1" "m1" 7
        [{ fileKey := " TITLE ", title := none, content := "Brand new title content" }]
        demoFileStore) "j1__title" =
      some { demoTitleFile with
             content := "Brand new title content"
             revision := 2
             updatedBy := UpdatedBy.opencode
             updatedAt := 7 } := by
  constructor
  · rfl
  · rfl

/-- C5 (amended): in one turn at most `MAX_FILES_PER_TURN` (6) proposed
updates survive the filter; every surviving update has non-whitespace
content and came from the proposed list; an update whose trimmed and
lowercased file key is not one of the six allowed keys is silently dropped
(the store, and hence every document, is unchanged and nothing is created);
and a surviving update targeting an existing document upserts its content,
increments the revision by one and sets `updatedBy` to the agent. -/
theorem agent_updates_per_turn_validation :
    (∀ us : List OpencodeUpdate, (filterTurnUpdates us).length ≤ MAX_FILES_PER_TURN) ∧
    (∀ (us : List OpencodeUpdate) (u : OpencodeUpdate), u ∈ filterTurnUpdates us →
      (normalizeText (some u.content)).length ≠ 0 ∧ u ∈ us) ∧
    (∀ (jobId movieId : String) (now : Int) (st : FileStore) (u : OpencodeUpdate),
      ALLOWED_FILE_KEYS.contains (jsToLower (jsTrim u.fileKey)) = false →
      applyOneUpdate jobId movieId now st u = st) ∧
    (∀ (jobId movieId : String) (now : Int) (st : FileStore) (u : OpencodeUpdate) (cur : FileRec),
      ALLOWED_FILE_KEYS.contains (jsToLower (jsTrim u.fileKey)) = true →
      storeGet st (creativeFileDocId jobId (jsToLower (jsTrim u.fileKey))) = some cur →
      applyOneUpdate jobId movieId now st u =
        storeSet st (creativeFileDocId jobId (jsToLower (jsTrim u.fileKey)))
          { cur with
            title := jsOr (normalizeText u.title) cur.title
            content := u.content
            revision := cur.revision + 1
            updatedBy := UpdatedBy.opencode
            updatedAt := now }) := by
  refine ⟨?_, ?_, ?_, ?_⟩
  · intro us
    calc (filterTurnUpdates us).length
        ≤ (us.take MAX_FILES_PER_TURN).length := List.length_filter_le _ _
      _ ≤ MAX_FILES_PER_TURN := by
          simp only [List.length_take]
          exact min_le_left MAX_FILES_PER_TURN us.length
  · intro us u hu
    have h2 := List.mem_filter.mp hu
    refine ⟨?_, List.mem_of_mem_take h2.1⟩
    have h3 := of_decide_eq_true h2.2
    omega
  · intro jobId movieId now st u hk
    unfold applyOneUpdate
    dsimp only
    rw [if_neg (by rw [hk]; decide)]
  · intro jobId movieId now st u cur hk hg
    unfold applyOneUpdate
    dsimp only
    rw [if_pos hk, hg]

/-- A well-formed agent update targeting the demo title document. -/
def demoGoodUpdate : OpencodeUpdate :=
  { fileKey := "title", title := none, content := "A better film title" }

/-- Witness for C5: the validation pipeline evaluated on concrete inputs —
the filter keeps the good update, an update with an unknown key leaves the
demo store untouched, and the good update bumps the title document to
revision 2. -/
theorem agent_updates_per_turn_validation_witness :
    (filterTurnUpdates [demoGoodUpdate]).length ≤ MAX_FILES_PER_TURN ∧
    ((normalizeText (some demoGoodUpdate.content)).length ≠ 0 ∧ demoGoodUpdate ∈ [demoGoodUpdate]) ∧
    applyOneUpdate "j1" "m1" 7 demoFileStore { fileKey := "bogus", title := none, content := "x" } =
      demoFileStore ∧
    applyOneUpdate "j1" "m1" 7 demoFileStore demoGoodUpdate =
      storeSet demoFileStore "j1__title"
        { demoTitleFile with
          title := jsOr (normalizeText demoGoodUpdate.title) demoTitleFile.title
          content := demoGoodUpdate.content
          revision := 2
          updatedBy := UpdatedBy.opencode
          updatedAt := 7 } :=
  ⟨agent_updates_per_turn_validation.1 [demoGoodUpdate],
   agent_updates_per_turn_validation.2.1 [demoGoodUpdate] demoGoodUpdate (by decide),
   agent_updates_per_turn_validation.2.2.1 "j1" "m1" 7 demoFileStore _ (by decide),
   agent_updates_per_turn_validation.2.2.2 "j1" "m1" 7 demoFileStore demoGoodUpdate demoTitleFile
     (by decide) rfl⟩

/-- One agent update never lowers the revision of any existing document: the
document is either untouched or rewritten with revision one higher. -/
lemma applyOneUpdate_revision_mono (jobId movieId : String) (now : Int) (st : FileStore)
    (u : OpencodeUpdate) (k : String) (rec : FileRec) (h : storeGet st k = some rec) :
    ∃ rec2, storeGet (applyOneUpdate jobId movieId now st u) k = some rec2 ∧
      rec.revision ≤ rec2.revision ∧ (rec2 = rec ∨ rec.revision < rec2.revision) := by
  unfold applyOneUpdate
  dsimp only
  by_cases hk : ALLOWED_FILE_KEYS.contains (jsToLower (jsTrim u.fileKey)) = true
  · rw [if_pos hk]
    cases hg : storeGet st (creativeFileDocId jobId (jsToLower (jsTrim u.fileKey))) with
    | none =>
      have hne : k ≠ creativeFileDocId jobId (jsToLower (jsTrim u.fileKey)) := by
        intro he
        rw [he, hg] at h
        cases h
      exact ⟨rec, by rw [storeGet_storeSet_ne _ _ _ _ hne]; exact h, le_refl _, Or.inl rfl⟩
    | some cur =>
      by_cases hk2 : k = creativeFileDocId jobId (jsToLower (jsTrim u.fileKey))
      · subst hk2
        rw [hg] at h
        injection h with h
        subst h
        refine ⟨_, storeGet_storeSet_self _ _ _, ?_, Or.inr ?_⟩
        · exact le_of_lt (lt_add_one _)
        · exact lt_add_one _
      · exact ⟨rec, by rw [storeGet_storeSet_ne _ _ _ _ hk2]; exact h, le_refl _, Or.inl rfl⟩
  · rw [if_neg hk]
    exact ⟨rec, h, le_refl _, Or.inl rfl⟩

/-- Folding agent updates never lowers the revision of any existing
document, and any change strictly raises it. -/
lemma foldl_applyOneUpdate_revision_mono (jobId movieId : String) (now : Int) :
    ∀ (us : List OpencodeUpdate) (st : FileStore) (k : String) (rec : FileRec),
      storeGet st k = some rec →
      ∃ rec2, storeGet (us.foldl (applyOneUpdate jobId movieId now) st) k = some rec2 ∧
        rec.revision ≤ rec2.revision ∧ (rec2 = rec ∨ rec.revision < rec2.revision) := by
  intro us
  induction us with
  | nil => intro st k rec h; exact ⟨rec, h, le_refl _, Or.inl rfl⟩
  | cons u rest ih =>
    intro st k rec h
    obtain ⟨rec1, h1, hle1, hor1⟩ := applyOneUpdate_revision_mono jobId movieId now st u k rec h
    obtain ⟨rec2, h2, hle2, hor2⟩ := ih (applyOneUpdate jobId movieId now st u) k rec1 h1
    refine ⟨rec2, by simpa using h2, le_trans hle1 hle2, ?_⟩
    rcases hor1 with he1 | hlt1
    · subst he1
      exact hor2
    · rcases hor2 with he2 | hlt2
      · subst he2
        exact Or.inr hlt1
      · exact Or.inr (lt_trans hlt1 hlt2)

/-- C4: the stored revision of every (jobId, fileKey) document is strictly
increasing across its update history: a surviving agent update applied to an
existing document writes exactly the previous revision plus one, a whole
agent turn leaves every existing document either unchanged or at a strictly
higher revision (never lower or equal on a write), and a user edit writes
exactly the previous revision plus one while a failed user edit changes
nothing. -/
theorem revision_strictly_increasing :
    (∀ (jobId movieId : String) (now : Int) (st : FileStore) (u : OpencodeUpdate) (cur : FileRec),
      ALLOWED_FILE_KEYS.contains (jsToLower (jsTrim u.fileKey)) = true →
      storeGet st (creativeFileDocId jobId (jsToLower (jsTrim u.fileKey))) = some cur →
      (storeGet (applyOneUpdate jobId movieId now st u)
          (creativeFileDocId jobId (jsToLower (jsTrim u.fileKey)))).map FileRec.revision =
        some (cur.revision + 1)) ∧
    (∀ (jobId movieId : String) (now : Int) (us : List OpencodeUpdate) (st : FileStore)
        (k : String) (rec : FileRec),
      storeGet st k = some rec →
      ∃ rec2, storeGet (applyOpencodeUpdates jobId movieId now us st) k = some rec2 ∧
        rec.revision ≤ rec2.revision ∧ (rec2 = rec ∨ rec.revision < rec2.revision)) ∧
    (∀ (jobId fileKey content : String) (now : Int) (st : FileStore) (rec : FileRec),
      storeGet st (creativeFileDocId jobId fileKey) = some rec →
      (storeGet (updateCreativeFile jobId fileKey content now st).2
          (creativeFileDocId jobId fileKey)).map FileRec.revision = some (rec.revision + 1)) ∧
    (∀ (jobId fileKey content : String) (now : Int) (st : FileStore),
      storeGet st (creativeFileDocId jobId fileKey) = none →
      (updateCreativeFile jobId fileKey content now st).2 = st) := by
  refine ⟨?_, ?_, ?_, ?_⟩
  · intro jobId movieId now st u cur hk hg
    unfold applyOneUpdate
    dsimp only
    rw [if_pos hk, hg]
    dsimp only
    rw [storeGet_storeSet_self]
    rfl
  · intro jobId movieId now us st k rec h
    exact foldl_applyOneUpdate_revision_mono jobId movieId now (us.take MAX_FILES_PER_TURN) st k rec h
  · intro jobId fileKey content now st rec h
    unfold updateCreativeFile
    dsimp only
    rw [h]
    dsimp only
    rw [storeGet_storeSet_self]
    rfl
  · intro jobId fileKey content now st h
    unfold updateCreativeFile
    dsimp only
    rw [h]

/-- Witness for C4: on the demo store, an agent update writes revision 2, a
whole turn keeps the document's revision at 2 (strictly above 1), a user
edit writes revision 2, and a user edit of a missing document leaves the
store unchanged. -/
theorem revision_strictly_increasing_witness :
    (storeGet (applyOneUpdate "j1" "m1" 7 demoFileStore demoGoodUpdate) "j1__title").map FileRec.revision =
      some (demoTitleFile.revision + 1) ∧
    (∃ rec2, storeGet (applyOpencodeUpdates "j1" "m1" 7 [demoGoodUpdate] demoFileStore) "j1__title" = some rec2 ∧
      demoTitleFile.revision ≤ rec2.revision ∧
      (rec2 = demoTitleFile ∨ demoTitleFile.revision < rec2.revision)) ∧
    (storeGet (updateCreativeFile "j1" "title" "user text" 8 demoFileStore).2 "j1__title").map FileRec.revision =
      some (demoTitleFile.revision + 1) ∧
    (updateCreativeFile "j1" "missing" "user text" 8 demoFileStore).2 = demoFileStore :=
  ⟨revision_strictly_increasing.1 "j1" "m1" 7 demoFileStore demoGoodUpdate demoTitleFile (by decide) rfl,
   revision_strictly_increasing.2.1 "j1" "m1" 7 [demoGoodUpdate] demoFileStore "j1__title" demoTitleFile rfl,
   revision_strictly_increasing.2.2.1 "j1" "title" "user text" 8 demoFileStore demoTitleFile rfl,
   revision_strictly_increasing.2.2.2 "j1" "missing" "user text" 8 demoFileStore rfl⟩

/-- Invariant: every stored job's progress lies in `[0, 100]`. -/
def progressInv (st : JobStore) : Prop :=
  ∀ e ∈ st, 0 ≤ e.2.progress ∧ e.2.progress ≤ 100

/-- The webhook patch keeps progress in range: it writes the constant 100 or
leaves the stored progress untouched. -/
lemma renderPatch_progress_range (args : CompleteWebhookInput) (now : Int) (job : JobRecord)
    (h : 0 ≤ job.progress ∧ job.progress ≤ 100) :
    0 ≤ (renderPatch args now job).progress ∧ (renderPatch args now job).progress ≤ 100 := by
  cases hs : args.status <;> simp [renderPatch, hs] <;> omega

/-- The job written by one loop body has progress in range. -/
lemma runIteration_progress_range (jobId movieId : String) (iteration : Nat) (now : Int)
    (model : OpencodeModelResponse) (st : LoopState) :
    0 ≤ (runIteration jobId movieId iteration now model st).1.job.progress ∧
    (runIteration jobId movieId iteration now model st).1.job.progress ≤ 100 := by
  unfold runIteration
  dsimp only
  exact updateJobDoc_progress_range _ _ _

/-- The loop's final job state has progress in range, whichever exit path is
taken. -/
lemma runLoopAux_progress_range (jobId movieId : String) (now : Int) (turns : Nat → TurnResult) :
    ∀ (budget iteration : Nat) (st : LoopState),
      0 ≤ (runLoopAux jobId movieId now turns iteration budget st).2.job.progress ∧
      (runLoopAux jobId movieId now turns iteration budget st).2.job.progress ≤ 100 := by
  intro budget
  induction budget with
  | zero =>
    intro iteration st
    exact updateJobDoc_progress_range _ _ _
  | succ n ih =>
    intro iteration st
    unfold runLoopAux
    cases turns iteration with
    | error e => exact updateJobDoc_progress_range _ _ _
    | ok model =>
      dsimp only
      by_cases hd : (runIteration jobId movieId iteration now model st).2 = true
      · rw [if_pos hd]
        exact runIteration_progress_range _ _ _ _ _ _
      · rw [if_neg hd]
        exact ih _ _

/-- C3: every write of the job record keeps `progress` in `[0, 100]`: an
agent-supplied numeric progress is clamped into range whatever the fallback,
a non-numeric or NaN value falls back to a value already in range,
`updateJobState` writes an in-range progress unconditionally, and the render
webhook, production start, job creation and the whole convergence loop each
preserve the invariant. -/
theorem progress_always_in_range :
    (∀ (q : ℚ) (fallback : Int),
      0 ≤ clampProgress (some (JsNumber.val q)) fallback ∧
      clampProgress (some (JsNumber.val q)) fallback ≤ 100) ∧
    (∀ (v : Option JsNumber) (fallback : Int), 0 ≤ fallback → fallback ≤ 100 →
      0 ≤ clampProgress v fallback ∧ clampProgress v fallback ≤ 100) ∧
    (∀ (args : UpdateJobArgs) (now : Int) (job : JobRecord),
      0 ≤ (updateJobDoc args now job).progress ∧ (updateJobDoc args now job).progress ≤ 100) ∧
    (∀ (args : CompleteWebhookInput) (now : Int) (st : JobStore),
      progressInv st → progressInv (completeJobFromRenderWebhook args now st).2) ∧
    (∀ (jobId : String) (now : Int) (st : JobStore),
      progressInv st → progressInv (startProductionStep jobId now st).2) ∧
    (∀ (seed : List (String × String)) (movieId jobId userId : String) (now : Int)
        (jobs : JobStore) (files : FileStore),
      progressInv jobs →
      progressInv (createMovieAndQueueJob seed movieId jobId userId now jobs files).1) ∧
    (∀ (jobId movieId : String) (now : Int) (session : Except String Unit)
        (turns : Nat → TurnResult) (st : LoopState),
      0 ≤ (runOpencodeJob jobId movieId now session turns st).2.job.progress ∧
      (runOpencodeJob jobId movieId now session turns st).2.job.progress ≤ 100) := by
  refine ⟨clampProgress_val_range, ?_, updateJobDoc_progress_range, ?_, ?_, ?_, ?_⟩
  · intro v fallback h0 h1
    cases v with
    | none => exact ⟨h0, h1⟩
    | some n =>
      cases n with
      | nan => exact ⟨h0, h1⟩
      | val q => exact clampProgress_val_range q fallback
  · intro args now st hinv
    unfold completeJobFromRenderWebhook
    cases hf : st.find? (fun e => e.2.renderJobId = some args.renderJobId) with
    | none => exact hinv
    | some e =>
      dsimp only
      intro x hx
      rcases mem_storeSet _ _ _ _ hx with he | he
      · rw [he]
        exact renderPatch_progress_range args now e.2 (hinv e (List.mem_of_find?_eq_some hf))
      · exact hinv x he
  · intro jobId now st hinv
    unfold startProductionStep
    cases hg : storeGet st jobId with
    | none => exact hinv
    | some job =>
      dsimp only
      by_cases hc : job.stage ≠ JobStage.production_pending ∧ job.stage ≠ JobStage.completed
      · rw [if_pos hc]
        exact hinv
      · rw [if_neg hc]
        intro x hx
        rcases mem_storeSet _ _ _ _ hx with he | he
        · rw [he]
          exact ⟨by norm_num, by norm_num⟩
        · exact hinv x he
  · intro seed movieId jobId userId now jobs files hinv
    unfold createMovieAndQueueJob
    dsimp only
    intro x hx
    rcases mem_storeSet _ _ _ _ hx with he | he
    · rw [he]
      exact ⟨by norm_num [newJobRecord], by norm_num [newJobRecord]⟩
    · exact hinv x he
  · intro jobId movieId now session turns st
    unfold runOpencodeJob
    cases session with
    | error e => exact updateJobDoc_progress_range _ _ _
    | ok u => exact runLoopAux_progress_range _ _ _ _ _ _ _

/-- A job waiting on an external render, used as concrete input below. -/
def demoRenderJob : JobRecord :=
  { demoJob with stage := JobStage.assembly, status := JobStatus.generating, renderJobId := some "r1" }

/-- A done-classified webhook input matching the demo render job. -/
def demoDoneWebhook : CompleteWebhookInput :=
  { renderJobId := "r1"
    status := RenderStatus.done
    finalVideoUrl := some "https://cdn.example/video.mp4"
    error := none
    providerMeta := none }

/-- Witness for C3: the clamp bounds a NaN input through an in-range
fallback, and the webhook, production-start and creation operations preserve
the invariant on concrete single-job stores. -/
theorem progress_always_in_range_witness :
    (0 ≤ clampProgress (some JsNumber.nan) 50 ∧ clampProgress (some JsNumber.nan) 50 ≤ 100) ∧
    progressInv (completeJobFromRenderWebhook demoDoneWebhook 4 [("j1", demoRenderJob)]).2 ∧
    progressInv (startProductionStep "j1" 9 [("j1", demoPendingJob)]).2 ∧
    progressInv (createMovieAndQueueJob [] "m2" "j2" "u2" 0 [("j1", demoJob)] []).1 :=
  ⟨progress_always_in_range.2.1 (some JsNumber.nan) 50 (by decide) (by decide),
   progress_always_in_range.2.2.2.1 demoDoneWebhook 4 [("j1", demoRenderJob)] (by unfold progressInv; decide),
   progress_always_in_range.2.2.2.2.1 "j1" 9 [("j1", demoPendingJob)] (by unfold progressInv; decide),
   progress_always_in_range.2.2.2.2.2.1 [] "m2" "j2" "u2" 0 [("j1", demoJob)] [] (by unfold progressInv; decide)⟩

/-- A job already in the terminal `failed` stage whose render id matches the
demo webhook, used to examine the render reconciler. -/
def demoFailedRenderJob : JobRecord :=
  { demoJob with
    status := JobStatus.failed
    stage := JobStage.failed
    renderJobId := some "r1"
    error := some "earlier failure" }

/-- Counterexample for C9: the render reconciler patches the stage without
reading the current stage, so a done-classified webhook moves a job from the
terminal `failed` stage straight to `completed` — an edge outside the
claimed transition graph, in which `failed` is terminal. -/
theorem webhook_leaves_terminal_failed :
    demoFailedRenderJob.stage = JobStage.failed ∧
    (storeGet (completeJobFromRenderWebhook demoDoneWebhook 4 [("j1", demoFailedRenderJob)]).2 "j1").map
        JobRecord.stage = some JobStage.completed := by
  constructor
  · rfl
  · rfl

/-- The stage stored by `updateJobDoc` is exactly the requested stage. -/
lemma updateJobDoc_stage (args : UpdateJobArgs) (now : Int) (job : JobRecord) :
    (updateJobDoc args now job).stage = args.stage := rfl

/-- `stageFromModel` only produces pre-production-family stages. -/
lemma stageFromModel_mem (s : Option String) :
    stageFromModel s ∈
      [JobStage.pre_production, JobStage.production_pending, JobStage.production,
       JobStage.idea, JobStage.story, JobStage.screenplay, JobStage.scene_plan,
       JobStage.planning] := by
  cases s with
  | none => decide
  | some t =>
    unfold stageFromModel
    dsimp only
    split_ifs <;> decide

/-- C9 (amended): the stage values each operation can write are fixed — the
render reconciler always writes `completed`, `failed` or `assembly`,
regardless of the job's current stage (so terminal stages are not protected
from a late webhook); the agent's stage hint is mapped into the
pre-production family `{pre_production, production_pending, production,
idea, story, screenplay, scene_plan, planning}`, and a loop iteration writes
`production_pending` on verified completion or one of those mapped hints
otherwise; production start is the only guarded transition — it succeeds
only from `production_pending` or `completed` (a reopen edge) and always
writes `production`. -/
theorem stage_transition_discipline :
    (∀ (args : CompleteWebhookInput) (now : Int) (job : JobRecord),
      (renderPatch args now job).stage = JobStage.completed ∨
      (renderPatch args now job).stage = JobStage.failed ∨
      (renderPatch args now job).stage = JobStage.assembly) ∧
    (∀ s : Option String,
      stageFromModel s ∈
        [JobStage.pre_production, JobStage.production_pending, JobStage.production,
         JobStage.idea, JobStage.story, JobStage.screenplay, JobStage.scene_plan,
         JobStage.planning]) ∧
    (∀ (jobId movieId : String) (iteration : Nat) (now : Int)
        (model : OpencodeModelResponse) (st : LoopState),
      (runIteration jobId movieId iteration now model st).1.job.stage ∈
        [JobStage.pre_production, JobStage.production_pending, JobStage.production,
         JobStage.idea, JobStage.story, JobStage.screenplay, JobStage.scene_plan,
         JobStage.planning]) ∧
    (∀ (jobId : String) (now : Int) (st : JobStore) (job : JobRecord),
      storeGet st jobId = some job →
      (startProductionStep jobId now st).1 = Except.ok () →
      (job.stage = JobStage.production_pending ∨ job.stage = JobStage.completed) ∧
      (startProductionStep jobId now st).2 =
        storeSet st jobId
          { job with
            status := JobStatus.generating
            stage := JobStage.production
            progress := 0
            message := "Step 2 production triggered."
            updatedAt := now }) := by
  refine ⟨?_, stageFromModel_mem, ?_, ?_⟩
  · intro args now job
    cases hs : args.status <;> simp [renderPatch, hs]
  · intro jobId movieId iteration now model st
    unfold runIteration
    dsimp only
    rw [updateJobDoc_stage]
    dsimp only
    by_cases hd : (decide (model.done = some true) &&
        hasCoreFilesCompleted (filesForJob jobId (iterationFiles jobId movieId now model st.files)) &&
        decide (normalizeText model.doneToken = DEFAULT_DONE_TOKEN)) = true
    · rw [if_pos hd]
      decide
    · rw [if_neg hd]
      exact stageFromModel_mem model.stage
  · intro jobId now st job hg h
    unfold startProductionStep at h ⊢
    rw [hg] at h ⊢
    dsimp only at h ⊢
    by_cases hc : job.stage ≠ JobStage.production_pending ∧ job.stage ≠ JobStage.completed
    · rw [if_pos hc] at h
      cases h
    · rw [if_neg hc] at h ⊢
      refine ⟨?_, rfl⟩
      rcases not_and_or.mp hc with h1 | h1
      · exact Or.inl (not_not.mp h1)
      · exact Or.inr (not_not.mp h1)

/-- Witness for C9: starting production on the demo `production_pending` job
satisfies the guard and writes stage `production`. -/
theorem stage_transition_discipline_witness :
    (demoPendingJob.stage = JobStage.production_pending ∨ demoPendingJob.stage = JobStage.completed) ∧
    (startProductionStep "j1" 9 [("j1", demoPendingJob)]).2 =
      storeSet [("j1", demoPendingJob)] "j1"
        { demoPendingJob with
          status := JobStatus.generating
          stage := JobStage.production
          progress := 0
          message := "Step 2 production triggered."
          updatedAt := 9 } :=
  stage_transition_discipline.2.2.2 "j1" 9 [("j1", demoPendingJob)] demoPendingJob rfl rfl

/-- C1: one iteration of the convergence loop completes the job — patching
it to status `completed`, stage `production_pending`, progress 100, with the
completion token set to the sentinel — exactly when all three conditions
hold at once: the agent responded `done = true`, all six required documents
(as reloaded after this turn's updates) pass their minimum-length check, and
the trimmed `doneToken` equals `__OPENCODE_DONE__`; the returned `done` flag
that makes the loop stop with success obeys the same equivalence, so a
response failing any one condition never completes the job. -/
theorem convergence_completion_iff (jobId movieId : String) (iteration : Nat) (now : Int)
    (model : OpencodeModelResponse) (st : LoopState) :
    (((runIteration jobId movieId iteration now model st).1.job.status = JobStatus.completed ∧
      (runIteration jobId movieId iteration now model st).1.job.stage = JobStage.production_pending ∧
      (runIteration jobId movieId iteration now model st).1.job.progress = 100 ∧
      (runIteration jobId movieId iteration now model st).1.job.completionToken = some DEFAULT_DONE_TOKEN) ↔
     (model.done = some true ∧
      hasCoreFilesCompleted (filesForJob jobId (runIteration jobId movieId iteration now model st).1.files) = true ∧
      normalizeText model.doneToken = DEFAULT_DONE_TOKEN)) ∧
    ((runIteration jobId movieId iteration now model st).2 = true ↔
     (model.done = some true ∧
      hasCoreFilesCompleted (filesForJob jobId (runIteration jobId movieId iteration now model st).1.files) = true ∧
      normalizeText model.doneToken = DEFAULT_DONE_TOKEN)) := by
  have hfiles : (runIteration jobId movieId iteration now model st).1.files
      = iterationFiles jobId movieId now model st.files := rfl
  have hflag : (runIteration jobId movieId iteration now model st).2
      = (decide (model.done = some true) &&
         hasCoreFilesCompleted (filesForJob jobId (iterationFiles jobId movieId now model st.files)) &&
         decide (normalizeText model.doneToken = DEFAULT_DONE_TOKEN)) := rfl
  have hstat : (runIteration jobId movieId iteration now model st).1.job.status
      = (if (runIteration jobId movieId iteration now model st).2 = true
         then JobStatus.completed else JobStatus.generating) := rfl
  have hstage : (runIteration jobId movieId iteration now model st).1.job.stage
      = (if (runIteration jobId movieId iteration now model st).2 = true
         then JobStage.production_pending else stageFromModel model.stage) := rfl
  have hprog : (runIteration jobId movieId iteration now model st).1.job.progress
      = clampProgress
          (some (JsNumber.val
            ((((if (runIteration jobId movieId iteration now model st).2 = true
                then (100 : Int)
                else clampProgress model.progress (defaultProgressForIteration iteration)) : Int) : ℚ))))
          st.job.progress := rfl
  have htok : (runIteration jobId movieId iteration now model st).1.job.completionToken
      = ((if (runIteration jobId movieId iteration now model st).2 = true
          then some (doneTokenResult model) else none) <|> st.job.completionToken) := rfl
  have hDiff : (decide (model.done = some true) &&
      hasCoreFilesCompleted (filesForJob jobId (iterationFiles jobId movieId now model st.files)) &&
      decide (normalizeText model.doneToken = DEFAULT_DONE_TOKEN)) = true ↔
      (model.done = some true ∧
       hasCoreFilesCompleted (filesForJob jobId (iterationFiles jobId movieId now model st.files)) = true ∧
       normalizeText model.doneToken = DEFAULT_DONE_TOKEN) := by
    simp [Bool.and_eq_true, decide_eq_true_eq, and_assoc]
  rw [hstat, hstage, hprog, htok, hfiles, hflag]
  by_cases hD : (decide (model.done = some true) &&
      hasCoreFilesCompleted (filesForJob jobId (iterationFiles jobId movieId now model st.files)) &&
      decide (normalizeText model.doneToken = DEFAULT_DONE_TOKEN)) = true
  · obtain ⟨p1, p2, p3⟩ := hDiff.mp hD
    constructor
    · apply iff_of_true
      · refine ⟨by rw [if_pos hD], by rw [if_pos hD], ?_, ?_⟩
        · rw [if_pos hD]
          exact clampProgress_int_of_range 100 _ (by norm_num) (by norm_num)
        · rw [if_pos hD]
          show some (doneTokenResult model) = some DEFAULT_DONE_TOKEN
          unfold doneTokenResult jsOr
          rw [p3]
          rw [if_neg (by decide)]
      · exact ⟨p1, p2, p3⟩
    · exact iff_of_true hD ⟨p1, p2, p3⟩
  · constructor
    · apply iff_of_false
      · intro hL
        have hs := hL.1
        rw [if_neg hD] at hs
        cases hs
      · intro hR
        exact hD (hDiff.mpr hR)
    · exact iff_of_false hD (fun hR => hD (hDiff.mpr hR))

/-- The job fields written by the failure patches of the loop. -/
lemma updateJobDoc_fail (m e : String) (now : Int) (job : JobRecord) :
    (updateJobDoc (failJobArgs m e) now job).status = JobStatus.failed ∧
    (updateJobDoc (failJobArgs m e) now job).stage = JobStage.failed ∧
    (updateJobDoc (failJobArgs m e) now job).progress = 100 ∧
    (updateJobDoc (failJobArgs m e) now job).error = some e := by
  refine ⟨rfl, rfl, ?_, rfl⟩
  show clampProgress (some (JsNumber.val ((100 : Int) : ℚ))) job.progress = 100
  exact clampProgress_int_of_range 100 _ (by norm_num) (by norm_num)

/-- The loop consults the oracle only at the iterations inside its budget. -/
lemma runLoopAux_congr (jobId movieId : String) (now : Int) (t1 t2 : Nat → TurnResult) :
    ∀ (budget iteration : Nat) (st : LoopState),
      (∀ k, iteration ≤ k → k < iteration + budget → t1 k = t2 k) →
      runLoopAux jobId movieId now t1 iteration budget st =
        runLoopAux jobId movieId now t2 iteration budget st := by
  intro budget
  induction budget with
  | zero => intro it st _; rfl
  | succ n ih =>
    intro it st h
    have ht : t1 it = t2 it := h it le_rfl (by omega)
    unfold runLoopAux
    rw [ht]
    cases t2 it with
    | error e => rfl
    | ok model =>
      dsimp only
      by_cases hd : (runIteration jobId movieId it now model st).2 = true
      · rw [if_pos hd, if_pos hd]
      · rw [if_neg hd, if_neg hd]
        exact ih (it + 1) _ (fun k h1 h2 => h k (by omega) (by omega))

/-- With an exception-free oracle, the loop from any point either returns
success (some iteration passed the three-way completion check, whatever made
it pass or fail before) or runs its budget out and takes the
`MAX_ITERATIONS_REACHED` path — every exhaustion cause is covered, including
turns where the agent asserted `done = true` with the exact sentinel but the
documents stayed below their minimum lengths. -/
lemma runLoopAux_ok_or_exhaust (jobId movieId : String) (now : Int) (turns : Nat → TurnResult) :
    ∀ (budget iteration : Nat) (st : LoopState),
      (∀ k, iteration ≤ k → k < iteration + budget → ∃ m, turns k = Except.ok m) →
      ((runLoopAux jobId movieId now turns iteration budget st).1.ok = true ∧
       (runLoopAux jobId movieId now turns iteration budget st).1.error = none) ∨
      ((runLoopAux jobId movieId now turns iteration budget st).1 =
        { ok := false, completionToken := none, nextStep := none,
          error := some "MAX_ITERATIONS_REACHED" } ∧
       (runLoopAux jobId movieId now turns iteration budget st).2.job.status = JobStatus.failed ∧
       (runLoopAux jobId movieId now turns iteration budget st).2.job.stage = JobStage.failed ∧
       (runLoopAux jobId movieId now turns iteration budget st).2.job.progress = 100 ∧
       (runLoopAux jobId movieId now turns iteration budget st).2.job.error =
         some "MAX_ITERATIONS_REACHED") := by
  intro budget
  induction budget with
  | zero =>
    intro it st _
    have hf := updateJobDoc_fail "OpenCode Step 1 stopped before completing required files."
      "MAX_ITERATIONS_REACHED" now st.job
    exact Or.inr ⟨rfl, hf.1, hf.2.1, hf.2.2.1, hf.2.2.2⟩
  | succ n ih =>
    intro it st h
    obtain ⟨model, hok⟩ := h it le_rfl (by omega)
    unfold runLoopAux
    rw [hok]
    dsimp only
    by_cases hd : (runIteration jobId movieId it now model st).2 = true
    · rw [if_pos hd]
      exact Or.inl ⟨rfl, rfl⟩
    · rw [if_neg hd]
      exact ih (it + 1) _ (fun k h1 h2 => h k (by omega) (by omega))

/-- C2: the convergence loop sends at most `MAX_ITERATIONS` (8) turns — two
oracles that agree on iterations 1..8 produce identical runs, so no later
turn is ever consulted — and a run whose 8 turns all return a parsed
response either succeeds (an iteration passed the three-way completion
check) or, exhausted without the check ever succeeding — for any reason,
including `done = true` with the correct sentinel but documents below their
minimum lengths — returns failure with error `MAX_ITERATIONS_REACHED` and
patches the job to status `failed`, stage `failed`, progress 100 with that
error. -/
theorem loop_iteration_budget :
    (∀ (jobId movieId : String) (now : Int) (session : Except String Unit)
        (t1 t2 : Nat → TurnResult) (st : LoopState),
      (∀ k, 1 ≤ k → k ≤ MAX_ITERATIONS → t1 k = t2 k) →
      runOpencodeJob jobId movieId now session t1 st =
        runOpencodeJob jobId movieId now session t2 st) ∧
    (∀ (jobId movieId : String) (now : Int) (turns : Nat → TurnResult) (st : LoopState),
      (∀ k, 1 ≤ k → k ≤ MAX_ITERATIONS → ∃ m, turns k = Except.ok m) →
      ((runOpencodeJob jobId movieId now (Except.ok ()) turns st).1.ok = true ∧
       (runOpencodeJob jobId movieId now (Except.ok ()) turns st).1.error = none) ∨
      ((runOpencodeJob jobId movieId now (Except.ok ()) turns st).1 =
        { ok := false, completionToken := none, nextStep := none,
          error := some "MAX_ITERATIONS_REACHED" } ∧
       (runOpencodeJob jobId movieId now (Except.ok ()) turns st).2.job.status = JobStatus.failed ∧
       (runOpencodeJob jobId movieId now (Except.ok ()) turns st).2.job.stage = JobStage.failed ∧
       (runOpencodeJob jobId movieId now (Except.ok ()) turns st).2.job.progress = 100 ∧
       (runOpencodeJob jobId movieId now (Except.ok ()) turns st).2.job.error =
         some "MAX_ITERATIONS_REACHED")) := by
  constructor
  · intro jobId movieId now session t1 t2 st h
    cases session with
    | error e => rfl
    | ok u =>
      exact runLoopAux_congr jobId movieId now t1 t2 MAX_ITERATIONS 1 _
        (fun k h1 h2 => h k h1 (by omega))
  · intro jobId movieId now turns st h
    exact runLoopAux_ok_or_exhaust jobId movieId now turns MAX_ITERATIONS 1 _
      (fun k h1 h2 => h k h1 (by omega))

/-- An agent response asserting completion with the exact sentinel but
proposing no document updates: against a file store whose documents are
below their minimum lengths, only the document-length condition of the
three-way check fails, turn after turn. -/
def demoDoneShortModel : OpencodeModelResponse :=
  { stage := some "pre_production"
    progress := some (JsNumber.val (40 : ℚ))
    message := none
    done := some true
    doneToken := some "__OPENCODE_DONE__"
    updates := none }

/-- The loop state used as concrete input below: only the title document
exists, so five of the six required documents fail their length check. -/
def demoLoopState : LoopState := { job := demoJob, files := demoFileStore }

/-- Witness for C2: an oracle erroring on every turn is indistinguishable
from one that differs only after iteration 8; and a run whose every turn
asserts `done = true` with the correct sentinel over short documents — so
only the document-length condition fails — exhausts the budget into the
`MAX_ITERATIONS_REACHED` failure state, as the concrete evaluation at the
end confirms. -/
theorem loop_iteration_budget_witness :
    (runOpencodeJob "j1" "m1" 0 (Except.ok ()) (fun _ => Except.error "boom") demoLoopState =
      runOpencodeJob "j1" "m1" 0 (Except.ok ())
        (fun k => if k ≤ MAX_ITERATIONS then Except.error "boom" else Except.error "later") demoLoopState) ∧
    (((runOpencodeJob "j1" "m1" 0 (Except.ok ()) (fun _ => Except.ok demoDoneShortModel) demoLoopState).1.ok = true ∧
      (runOpencodeJob "j1" "m1" 0 (Except.ok ()) (fun _ => Except.ok demoDoneShortModel) demoLoopState).1.error = none) ∨
     ((runOpencodeJob "j1" "m1" 0 (Except.ok ()) (fun _ => Except.ok demoDoneShortModel) demoLoopState).1 =
       { ok := false, completionToken := none, nextStep := none,
         error := some "MAX_ITERATIONS_REACHED" } ∧
      (runOpencodeJob "j1" "m1" 0 (Except.ok ()) (fun _ => Except.ok demoDoneShortModel) demoLoopState).2.job.status = JobStatus.failed ∧
      (runOpencodeJob "j1" "m1" 0 (Except.ok ()) (fun _ => Except.ok demoDoneShortModel) demoLoopState).2.job.stage = JobStage.failed ∧
      (runOpencodeJob "j1" "m1" 0 (Except.ok ()) (fun _ => Except.ok demoDoneShortModel) demoLoopState).2.job.progress = 100 ∧
      (runOpencodeJob "j1" "m1" 0 (Except.ok ()) (fun _ => Except.ok demoDoneShortModel) demoLoopState).2.job.error =
        some "MAX_ITERATIONS_REACHED")) ∧
    (runOpencodeJob "j1" "m1" 0 (Except.ok ()) (fun _ => Except.ok demoDoneShortModel) demoLoopState).1.ok = false ∧
    (runOpencodeJob "j1" "m1" 0 (Except.ok ()) (fun _ => Except.ok demoDoneShortModel) demoLoopState).1.error =
      some "MAX_ITERATIONS_REACHED" :=
  ⟨loop_iteration_budget.1 "j1" "m1" 0 (Except.ok ()) _ _ demoLoopState
     (fun k _ h2 => by rw [if_pos h2]),
   loop_iteration_budget.2 "j1" "m1" 0 _ demoLoopState
     (fun k _ _ => ⟨demoDoneShortModel, rfl⟩),
   by decide,
   by decide⟩
